import Mathlib

/-!
Shallow embedding of `src/xml/element_builder.rs` (RustyXML's DOM builder).

The Rust code builds `Element` trees from a stream of parser `Event`s.  The
builder owns three pieces of state: the open-node stack (`stack`), the
default-namespace stack (`default_ns`) and the persistent prefix table
(`prefixes`, a `HashMap<String, String>` from namespace URI to prefix).

Representation choices:
* Rust `Vec` stacks (push/pop at the end) are Lean lists with the TOP AT THE
  HEAD, so `Vec::push` is `cons`, `Vec::pop` is `tail`/head-match and
  `Vec::last` is `head?`.
* `HashMap<String, String>` is an association list without duplicate keys in
  which `insert` overwrites in place (`pmInsert`) and lookup is `pmFind`;
  `clone` is plain value copying.
* The attribute map `HashMap<(String, Option<String>), String>` is an
  association list of `((localName, namespace?), value)` pairs; the Rust
  iteration over a `HashMap` visits its entries in some order, embedded here
  as the list order.
* `Result<T, E>` is `Except E T`; `&mut self` methods become functions
  returning the new state (paired with the `Result` for `push_event`).
-/

namespace RustyXML

/-- The attribute map of a start tag: `((localName, namespace?), value)` pairs. -/
abbrev Attrs := List ((String × Option String) × String)

/-- The representation of `HashMap<String, String>` (namespace URI → prefix). -/
abbrev PrefixMap := List (String × String)

/-- `HashMap::insert`: overwrite the binding of `key` in place, or append it. -/
def pmInsert : PrefixMap → String → String → PrefixMap
  | [], key, val => [(key, val)]
  | (k, v) :: rest, key, val =>
      if k = key then (key, val) :: rest else (k, v) :: pmInsert rest key val

/-- `HashMap::get`: the value bound to `key`, if any. -/
def pmFind : PrefixMap → String → Option String
  | [], _ => none
  | (k, v) :: rest, key => if k = key then some v else pmFind rest key

/-- `StartTag` from `src/xml/mod.rs` (fields as used by the builder; the
prefix hint is ignored by `push_event`). -/
structure StartTag where
  name : String
  ns : Option String
  pfx : Option String
  attributes : Attrs
deriving DecidableEq

/-- `EndTag` from `src/xml/mod.rs`. -/
structure EndTag where
  name : String
  ns : Option String
  pfx : Option String
deriving DecidableEq

/-- Modelled from the spec: the tokenizer's error type (`parser::ParserError`)
is an external collaborator whose file is not part of this fragment; the
builder only wraps and forwards it, so it is opaque here. -/
inductive ParserError where
  | mk (msg : String)
deriving DecidableEq

/-- `Event` as produced by the `Parser`. -/
inductive Event where
  | PI (cont : String)
  | ElementStart (tag : StartTag)
  | ElementEnd (tag : EndTag)
  | Characters (chars : String)
  | CDATA (chars : String)
  | Comment (cont : String)
deriving DecidableEq

/-- `BuilderError` from `src/xml/element_builder.rs`. -/
inductive BuilderError where
  | Parser (err : ParserError)
  | ImproperNesting
  | NoElement
deriving DecidableEq

mutual
/-- `Element` from `src/xml/mod.rs`: name, namespace, resolved default
namespace, prefix-table snapshot, attributes, ordered children. -/
inductive Element : Type where
  | mk (name : String) (ns : Option String) (default_ns : Option String)
      (prefixes : PrefixMap) (attributes : Attrs) (children : List Xml) : Element

/-- `Xml` from `src/xml/mod.rs`: one node of the finished tree. -/
inductive Xml : Type where
  | ElementNode (elem : Element) : Xml
  | CharacterNode (chars : String) : Xml
  | CDATANode (chars : String) : Xml
  | CommentNode (cont : String) : Xml
  | PINode (cont : String) : Xml
end

def Element.name : Element → String
  | .mk n _ _ _ _ _ => n

def Element.ns : Element → Option String
  | .mk _ n _ _ _ _ => n

def Element.default_ns : Element → Option String
  | .mk _ _ d _ _ _ => d

def Element.prefixes : Element → PrefixMap
  | .mk _ _ _ p _ _ => p

def Element.attributes : Element → Attrs
  | .mk _ _ _ _ a _ => a

def Element.children : Element → List Xml
  | .mk _ _ _ _ _ c => c

/-- `elem.children.push(x)` on an element. -/
def Element.withChild : Element → Xml → Element
  | .mk n ns d p a c, x => .mk n ns d p a (c ++ [x])

/-- `ElementBuilder` from `src/xml/element_builder.rs`: open-node stack
(innermost FIRST here), default-namespace stack (top first) and the
persistent prefix table. -/
structure ElementBuilder where
  stack : List Element
  default_ns : List (Option String)
  prefixes : PrefixMap

/-- `ElementBuilder::new`: empty stacks, prefix table seeded with the two
fixed bindings. -/
def ElementBuilder.new : ElementBuilder :=
  { stack := []
    default_ns := []
    prefixes :=
      pmInsert (pmInsert [] "http://www.w3.org/XML/1998/namespace" "xml")
        "http://www.w3.org/2000/xmlns/" "xmlns" }

/-- `ElementBuilder::define_prefix`: bind a prefix to a namespace in the
persistent table. -/
def ElementBuilder.define_prefix (b : ElementBuilder) (p ns : String) : ElementBuilder :=
  { b with prefixes := pmInsert b.prefixes ns p }

/-- `ElementBuilder::set_default_ns`: replace the whole default-namespace
stack by the single entry `some ns`. -/
def ElementBuilder.set_default_ns (b : ElementBuilder) (ns : String) : ElementBuilder :=
  { b with default_ns := [some ns] }

/-- The `if !self.default_ns.is_empty() { push a copy of its top }` step of
the `ElementStart` arm. -/
def dnsInherit : List (Option String) → List (Option String)
  | [] => []
  | t :: r => t :: t :: r

/-- The attribute loop of the `ElementStart` arm: for each attribute in
iteration order, an un-namespaced `xmlns` pops the default-namespace stack
and pushes the declared default (none for an empty value), and an attribute
in the xmlns namespace inserts value → localName into the element's own
prefix snapshot.  Returns the final default-namespace stack and snapshot. -/
def scanAttrs : Attrs → List (Option String) → PrefixMap →
    List (Option String) × PrefixMap
  | [], dns, pm => (dns, pm)
  | ((name, ns), value) :: rest, dns, pm =>
      if ns = none ∧ name = "xmlns" then
        scanAttrs rest
          ((if value.length = 0 then none else some value) :: dns.tail) pm
      else if ns = some "http://www.w3.org/2000/xmlns/" then
        scanAttrs rest dns (pmInsert pm value name)
      else
        scanAttrs rest dns pm

/-- `ElementBuilder::push_event`: hand one `Result<Event, ParserError>` to the
builder; returns the Rust `Result<Option<Element>, BuilderError>` paired with
the builder state after the call. -/
def push_event (b : ElementBuilder) (e : Except ParserError Event) :
    Except BuilderError (Option Element) × ElementBuilder :=
  match e with
  | .error err => (.error (.Parser err), b)
  | .ok (.PI cont) =>
      match b.stack with
      | [] => (.ok none, b)
      | top :: rest =>
          (.ok none, { b with stack := top.withChild (.PINode cont) :: rest })
  | .ok (.ElementStart ⟨name, ns, _, attributes⟩) =>
      let scanned := scanAttrs attributes (dnsInherit b.default_ns) b.prefixes
      let elem : Element :=
        .mk name ns (scanned.1.headD none) scanned.2 attributes []
      (.ok none, { b with stack := elem :: b.stack, default_ns := scanned.1 })
  | .ok (.ElementEnd ⟨name, ns, _⟩) =>
      match b.stack with
      | [] => (.error .ImproperNesting, b)
      | elem :: rest =>
          let b1 : ElementBuilder :=
            { stack := rest, default_ns := b.default_ns.tail, prefixes := b.prefixes }
          if elem.name ≠ name ∨ elem.ns ≠ ns then
            (.error .ImproperNesting, b1)
          else
            match rest with
            | [] => (.ok (some elem), b1)
            | p :: rest2 =>
                (.ok none, { b1 with stack := p.withChild (.ElementNode elem) :: rest2 })
  | .ok (.Characters chars) =>
      match b.stack with
      | [] => (.ok none, b)
      | top :: rest =>
          (.ok none, { b with stack := top.withChild (.CharacterNode chars) :: rest })
  | .ok (.CDATA chars) =>
      match b.stack with
      | [] => (.ok none, b)
      | top :: rest =>
          (.ok none, { b with stack := top.withChild (.CDATANode chars) :: rest })
  | .ok (.Comment cont) =>
      match b.stack with
      | [] => (.ok none, b)
      | top :: rest =>
          (.ok none, { b with stack := top.withChild (.CommentNode cont) :: rest })

/-- The driver loop: feed a list of event results one at a time, collecting
each call's result and the final builder state. -/
def run (b : ElementBuilder) :
    List (Except ParserError Event) →
      List (Except BuilderError (Option Element)) × ElementBuilder
  | [] => ([], b)
  | e :: rest =>
      let step := push_event b e
      let tail := run step.2 rest
      (step.1 :: tail.1, tail.2)

/-- `elem.children.extend(xs)`: append a list of children. -/
def Element.withChildren : Element → List Xml → Element
  | .mk n ns d p a c, xs => .mk n ns d p a (c ++ xs)

mutual
/-- A well-balanced document: a start tag with a body, closed by an end tag
carrying the same name and namespace. -/
inductive XTree : Type where
  | node (tag : StartTag) (body : XForest) : XTree

/-- The body of a well-balanced element: an ordered sequence of
processing-instruction, text, CDATA, comment and nested-element items. -/
inductive XForest : Type where
  | nil : XForest
  | pi (cont : String) (rest : XForest) : XForest
  | chars (s : String) (rest : XForest) : XForest
  | cdata (s : String) (rest : XForest) : XForest
  | comment (cont : String) (rest : XForest) : XForest
  | elem (t : XTree) (rest : XForest) : XForest
end

mutual
/-- The event sequence of a well-balanced document. -/
def eventsOfTree : XTree → List Event
  | .node tag body =>
      Event.ElementStart tag ::
        (eventsOfForest body ++ [Event.ElementEnd ⟨tag.name, tag.ns, tag.pfx⟩])

/-- The event sequence of an element body. -/
def eventsOfForest : XForest → List Event
  | .nil => []
  | .pi s rest => Event.PI s :: eventsOfForest rest
  | .chars s rest => Event.Characters s :: eventsOfForest rest
  | .cdata s rest => Event.CDATA s :: eventsOfForest rest
  | .comment s rest => Event.Comment s :: eventsOfForest rest
  | .elem t rest => eventsOfTree t ++ eventsOfForest rest
end

mutual
/-- The element the builder assembles for a well-balanced document, given the
persistent prefix table `pm` and default-namespace stack `dns` current when
its start event arrives. -/
def buildTree (pm : PrefixMap) (dns : List (Option String)) : XTree → Element
  | .node tag body =>
      let scanned := scanAttrs tag.attributes (dnsInherit dns) pm
      .mk tag.name tag.ns (scanned.1.headD none) scanned.2 tag.attributes
        (buildForest pm scanned.1 body)

/-- The children contributed by an element body. -/
def buildForest (pm : PrefixMap) (dns : List (Option String)) : XForest → List Xml
  | .nil => []
  | .pi s rest => .PINode s :: buildForest pm dns rest
  | .chars s rest => .CharacterNode s :: buildForest pm dns rest
  | .cdata s rest => .CDATANode s :: buildForest pm dns rest
  | .comment s rest => .CommentNode s :: buildForest pm dns rest
  | .elem t rest => .ElementNode (buildTree pm dns t) :: buildForest pm dns rest
end

theorem run_append (b : ElementBuilder) (es1 es2 : List (Except ParserError Event)) :
    run b (es1 ++ es2) =
      ((run b es1).1 ++ (run (run b es1).2 es2).1, (run (run b es1).2 es2).2) := by
  induction es1 generalizing b with
  | nil => simp [run]
  | cons e rest ih => simp [run, ih]

theorem withChildren_nil (e : Element) : e.withChildren [] = e := by
  cases e; simp [Element.withChildren]

theorem withChildren_withChild (e : Element) (xs : List Xml) (x : Xml) :
    (e.withChildren xs).withChild x = e.withChildren (xs ++ [x]) := by
  cases e; simp [Element.withChildren, Element.withChild]

theorem withChild_withChildren (e : Element) (x : Xml) (xs : List Xml) :
    (e.withChild x).withChildren xs = e.withChildren (x :: xs) := by
  cases e; simp [Element.withChildren, Element.withChild]

theorem scanAttrs_dns_shape (attrs : Attrs) (dns : List (Option String))
    (pm : PrefixMap) :
    (scanAttrs attrs dns pm).1 = dns ∨
      ∃ v, (scanAttrs attrs dns pm).1 = v :: dns.tail := by
  induction attrs generalizing dns pm with
  | nil => left; rfl
  | cons a rest ih =>
      obtain ⟨⟨name, ns⟩, value⟩ := a
      by_cases h1 : ns = none ∧ name = "xmlns"
      · simp only [scanAttrs, if_pos h1]
        rcases ih ((if value.length = 0 then none else some value) :: dns.tail) pm
          with h | ⟨v, h⟩
        · right; exact ⟨_, h⟩
        · right; exact ⟨v, by simpa using h⟩
      · by_cases h2 : ns = some "http://www.w3.org/2000/xmlns/"
        · simp only [scanAttrs, if_neg h1, if_pos h2]; exact ih dns _
        · simp only [scanAttrs, if_neg h1, if_neg h2]; exact ih dns pm

theorem scanAttrs_inherit_tail (attrs : Attrs) (dns : List (Option String))
    (pm : PrefixMap) :
    ((scanAttrs attrs (dnsInherit dns) pm).1).tail = dns := by
  rcases dns with _ | ⟨t, r⟩
  · show ((scanAttrs attrs [] pm).1).tail = []
    rcases scanAttrs_dns_shape attrs [] pm with h | ⟨v, h⟩ <;> rw [h] <;> rfl
  · show ((scanAttrs attrs (t :: t :: r) pm).1).tail = t :: r
    rcases scanAttrs_dns_shape attrs (t :: t :: r) pm with h | ⟨v, h⟩ <;>
      rw [h] <;> rfl

mutual
/-- Feeding the events of a well-balanced document to a builder whose
open-node stack is non-empty returns pending on every call and appends the
assembled element to the innermost open element, leaving the
default-namespace stack and the persistent prefix table as they were. -/
theorem run_tree (t : XTree) (top : Element) (rest : List Element)
    (dns : List (Option String)) (pm : PrefixMap) :
    run ⟨top :: rest, dns, pm⟩ ((eventsOfTree t).map Except.ok) =
      (List.replicate (eventsOfTree t).length (Except.ok none),
       ⟨top.withChild (.ElementNode (buildTree pm dns t)) :: rest, dns, pm⟩) := by
  obtain ⟨⟨name, ns, pfx0, attrs⟩, body⟩ := t
  have hbody := run_forest body
  simp only [eventsOfTree, List.map_cons, List.map_append, List.map_cons,
    List.map_nil, run, push_event]
  rw [run_append]
  rw [hbody]
  simp only [run, push_event, Element.name, Element.ns, Element.withChildren,
    List.nil_append]
  rw [scanAttrs_inherit_tail]
  simp [buildTree, List.length_append, List.replicate_succ, List.replicate_succ',
    List.replicate_add]
  rw [← List.replicate_succ', List.replicate_succ]

/-- Feeding the events of an element body to a builder whose open-node stack
is non-empty returns pending on every call and appends the body's nodes, in
order, to the innermost open element's children. -/
theorem run_forest (f : XForest) (top : Element) (rest : List Element)
    (dns : List (Option String)) (pm : PrefixMap) :
    run ⟨top :: rest, dns, pm⟩ ((eventsOfForest f).map Except.ok) =
      (List.replicate (eventsOfForest f).length (Except.ok none),
       ⟨top.withChildren (buildForest pm dns f) :: rest, dns, pm⟩) := by
  cases f with
  | nil => simp [eventsOfForest, buildForest, run, withChildren_nil]
  | pi s rest' =>
      simp only [eventsOfForest, buildForest, List.map_cons, run, push_event]
      rw [run_forest rest']
      simp [withChild_withChildren, List.replicate_succ]
  | chars s rest' =>
      simp only [eventsOfForest, buildForest, List.map_cons, run, push_event]
      rw [run_forest rest']
      simp [withChild_withChildren, List.replicate_succ]
  | cdata s rest' =>
      simp only [eventsOfForest, buildForest, List.map_cons, run, push_event]
      rw [run_forest rest']
      simp [withChild_withChildren, List.replicate_succ]
  | comment s rest' =>
      simp only [eventsOfForest, buildForest, List.map_cons, run, push_event]
      rw [run_forest rest']
      simp [withChild_withChildren, List.replicate_succ]
  | elem t rest' =>
      simp only [eventsOfForest, buildForest, List.map_append]
      rw [run_append, run_tree t]
      rw [run_forest rest']
      simp only [withChild_withChildren, List.length_append]
      rw [List.replicate_add]
end

theorem pmFind_pmInsert_self (m : PrefixMap) (k v : String) :
    pmFind (pmInsert m k v) k = some v := by
  induction m with
  | nil => simp [pmInsert, pmFind]
  | cons a rest ih =>
      obtain ⟨k', v'⟩ := a
      by_cases h : k' = k
      · simp [pmInsert, pmFind, h]
      · simp [pmInsert, pmFind, h, ih]

theorem pmFind_pmInsert_ne (m : PrefixMap) (k v key : String) (h : k ≠ key) :
    pmFind (pmInsert m k v) key = pmFind m key := by
  induction m with
  | nil => simp [pmInsert, pmFind, h]
  | cons a rest ih =>
      obtain ⟨k', v'⟩ := a
      by_cases h' : k' = k
      · simp [pmInsert, pmFind, h', h]
      · simp [pmInsert, pmFind, h', ih]

/-- The attribute scan leaves the lookup of `key` in the element's snapshot
unchanged when no attribute declares a prefix for the namespace `key`. -/
theorem scanAttrs_pm_find (attrs : Attrs) (dns : List (Option String))
    (pm : PrefixMap) (key : String)
    (h : ∀ a ∈ attrs,
      ¬(a.1.2 = some "http://www.w3.org/2000/xmlns/" ∧ a.2 = key)) :
    pmFind (scanAttrs attrs dns pm).2 key = pmFind pm key := by
  induction attrs generalizing dns pm with
  | nil => rfl
  | cons a rest ih =>
      obtain ⟨⟨name, ns⟩, value⟩ := a
      have hrest : ∀ a ∈ rest,
          ¬(a.1.2 = some "http://www.w3.org/2000/xmlns/" ∧ a.2 = key) :=
        fun a ha => h a (List.mem_cons_of_mem _ ha)
      by_cases h1 : ns = none ∧ name = "xmlns"
      · simp only [scanAttrs, if_pos h1]; exact ih _ pm hrest
      · by_cases h2 : ns = some "http://www.w3.org/2000/xmlns/"
        · have hv : value ≠ key := by
            have := h ((name, ns), value) (List.mem_cons_self _ _)
            intro hk
            exact this ⟨h2, hk⟩
          simp only [scanAttrs, if_neg h1, if_pos h2]
          rw [ih _ _ hrest, pmFind_pmInsert_ne _ _ _ _ hv]
        · simp only [scanAttrs, if_neg h1, if_neg h2]; exact ih _ pm hrest

/-- C1: for every well-balanced event sequence (every element-start matched
by an element-end with equal name and namespace, correctly nested — i.e. the
event sequence of a well-balanced document tree) fed one event at a time to
a fresh builder via `push_event`, every call returns the pending outcome
`Ok(None)` except the call for the final end of the outermost element, which
returns the fully populated root element (the one `buildTree` assembles)
exactly once, leaving the builder back in its idle state. -/
theorem c1_balanced_pending_until_root (t : XTree) :
    run ElementBuilder.new ((eventsOfTree t).map Except.ok) =
      (List.replicate ((eventsOfTree t).length - 1) (Except.ok none) ++
         [Except.ok (some (buildTree ElementBuilder.new.prefixes [] t))],
       ⟨[], [], ElementBuilder.new.prefixes⟩) := by
  obtain ⟨⟨name, ns, pfx0, attrs⟩, body⟩ := t
  simp only [eventsOfTree, List.map_cons, List.map_append, List.map_nil, run,
    push_event]
  rw [run_append, run_forest body]
  simp only [run, push_event, Element.name, Element.ns, Element.withChildren,
    List.nil_append]
  rw [scanAttrs_inherit_tail]
  simp only [ElementBuilder.new, buildTree]
  simp [List.length_append, List.replicate_succ, Nat.add_sub_cancel]

/-- C2 counterexample: on a fresh builder (where the two stacks have equal
length) an element-start event with no attributes pushes onto the open-node
stack but not onto the default-namespace stack, so the stacks' lengths are
unequal immediately after the call, contradicting the claimed invariant. -/
theorem c2_counterexample :
    ElementBuilder.new.default_ns.length = ElementBuilder.new.stack.length ∧
    (push_event ElementBuilder.new
        (.ok (.ElementStart ⟨"a", none, none, []⟩))).2.default_ns.length ≠
      (push_event ElementBuilder.new
        (.ok (.ElementStart ⟨"a", none, none, []⟩))).2.stack.length := by
  exact ⟨rfl, by decide⟩

/-- C2 (amended): across any single `push_event` call the default-namespace
stack never becomes longer than the open-node stack: if its length is at
most the open-node stack's immediately before the call, the same holds
immediately after — but the lengths are not always equal, since an
element-start with an empty default-namespace stack and no `xmlns` attribute
pushes onto the open-node stack only, and an element-end pops the
default-namespace stack only when it is non-empty. -/
theorem c2_depth_invariant (b : ElementBuilder) (e : Except ParserError Event)
    (h : b.default_ns.length ≤ b.stack.length) :
    (push_event b e).2.default_ns.length ≤ (push_event b e).2.stack.length := by
  obtain ⟨stack, dns, pm⟩ := b
  match e with
  | .error err => exact h
  | .ok (.PI s) => cases stack <;> simpa [push_event] using h
  | .ok (.Characters s) => cases stack <;> simpa [push_event] using h
  | .ok (.CDATA s) => cases stack <;> simpa [push_event] using h
  | .ok (.Comment s) => cases stack <;> simpa [push_event] using h
  | .ok (.ElementStart ⟨n, ns, px, attrs⟩) =>
      simp only [push_event, List.length_cons]
      rcases scanAttrs_dns_shape attrs (dnsInherit dns) pm with hs | ⟨v, hs⟩ <;>
        rw [hs] <;> cases dns <;>
        simp_all [dnsInherit, List.length_cons]
  | .ok (.ElementEnd ⟨n, ns, px⟩) =>
      cases stack with
      | nil => simpa [push_event] using h
      | cons top rest =>
          have htl : dns.tail.length = dns.length - 1 := List.length_tail dns
          cases rest with
          | nil =>
              by_cases hc : top.name ≠ n ∨ top.ns ≠ ns
              · simp only [push_event, if_pos hc]
                simp only [List.length_cons, List.length_nil] at h ⊢
                omega
              · simp only [push_event, if_neg hc]
                simp only [List.length_cons, List.length_nil] at h ⊢
                omega
          | cons p r2 =>
              by_cases hc : top.name ≠ n ∨ top.ns ≠ ns
              · simp only [push_event, if_pos hc]
                simp only [List.length_cons, List.length_nil] at h ⊢
                omega
              · simp only [push_event, if_neg hc]
                simp only [List.length_cons, List.length_nil] at h ⊢
                omega

/-- C3 counterexample: after an element-start for `a` carrying the attribute
`xmlns:p="urn:y"` (namespace `http://www.w3.org/2000/xmlns/`), the mapping
`urn:y → p` is present in `a`'s own prefix snapshot, but an element `b`
started while `a` is still open — a descendant — does NOT carry the mapping
in its snapshot, contradicting the claimed inheritance by descendants. -/
theorem c3_counterexample :
    ((push_event ElementBuilder.new
        (.ok (.ElementStart ⟨"a", none, none,
          [(("p", some "http://www.w3.org/2000/xmlns/"), "urn:y")]⟩))).2.stack.head?.map
        (fun el => pmFind el.prefixes "urn:y")) = some (some "p") ∧
    ((push_event (push_event ElementBuilder.new
        (.ok (.ElementStart ⟨"a", none, none,
          [(("p", some "http://www.w3.org/2000/xmlns/"), "urn:y")]⟩))).2
        (.ok (.ElementStart ⟨"b", none, none, []⟩))).2.stack.head?.map
        (fun el => pmFind el.prefixes "urn:y")) = some none := by
  exact ⟨rfl, rfl⟩

/-- C3 (amended): an element-start attribute in the XML-namespace-declaration
namespace records URI → localName in that element's own prefix snapshot
only: the builder's persistent table is unchanged, the elements created
earlier (the rest of the open-node stack) are untouched, and a descendant
element started next (here: with no attributes of its own) takes its
snapshot from the persistent table, so it does not inherit the local
declaration. -/
theorem c3_local_prefix_scoping (b : ElementBuilder) (p uri n n2 : String)
    (ns ns2 px px2 : Option String) :
    ((push_event b (.ok (.ElementStart ⟨n, ns, px,
        [((p, some "http://www.w3.org/2000/xmlns/"), uri)]⟩))).2.stack.head?.map
        (fun el => pmFind el.prefixes uri)) = some (some p) ∧
    (push_event b (.ok (.ElementStart ⟨n, ns, px,
        [((p, some "http://www.w3.org/2000/xmlns/"), uri)]⟩))).2.prefixes =
      b.prefixes ∧
    (push_event b (.ok (.ElementStart ⟨n, ns, px,
        [((p, some "http://www.w3.org/2000/xmlns/"), uri)]⟩))).2.stack.tail =
      b.stack ∧
    ((push_event (push_event b (.ok (.ElementStart ⟨n, ns, px,
        [((p, some "http://www.w3.org/2000/xmlns/"), uri)]⟩))).2
        (.ok (.ElementStart ⟨n2, ns2, px2, []⟩))).2.stack.head?.map
        Element.prefixes) = some b.prefixes := by
  refine ⟨?_, rfl, rfl, ?_⟩
  · simp [push_event, scanAttrs, Element.prefixes, pmFind_pmInsert_self]
  · simp [push_event, scanAttrs, Element.prefixes]

/-- The element returned by the last call when the events `es` are fed to a
fresh builder, if that call completed a document root. -/
def rootResult (es : List Event) : Option Element :=
  match (run ElementBuilder.new (es.map Except.ok)).1.getLast? with
  | some (.ok (some e)) => some e
  | _ => none

/-- The first element-node child of an element. -/
def firstChildElement (e : Element) : Option Element :=
  match e.children with
  | .ElementNode c :: _ => some c
  | _ => none

/-- The C4 event sequence `[start a (xmlns="urn:x"), start b, end b, end a]`. -/
def c4_events_inherit : List Event :=
  [.ElementStart ⟨"a", none, none, [(("xmlns", none), "urn:x")]⟩,
   .ElementStart ⟨"b", none, none, []⟩,
   .ElementEnd ⟨"b", none, none⟩,
   .ElementEnd ⟨"a", none, none⟩]

/-- The C4 event sequence
`[start a (xmlns="urn:x"), start b (xmlns=""), end b, end a]`. -/
def c4_events_override : List Event :=
  [.ElementStart ⟨"a", none, none, [(("xmlns", none), "urn:x")]⟩,
   .ElementStart ⟨"b", none, none, [(("xmlns", none), "")]⟩,
   .ElementEnd ⟨"b", none, none⟩,
   .ElementEnd ⟨"a", none, none⟩]

/-- C4: in `[start a (xmlns="urn:x"), start b, end b, end a]` element `b`'s
resolved default namespace is the inherited `"urn:x"`; in
`[start a (xmlns="urn:x"), start b (xmlns=""), end b, end a]` the empty
`xmlns` value overrides the inherited default, so `b`'s resolved default
namespace is none. -/
theorem c4_default_ns_resolution :
    ((rootResult c4_events_inherit).bind firstChildElement).map
        Element.default_ns = some (some "urn:x") ∧
    ((rootResult c4_events_override).bind firstChildElement).map
        Element.default_ns = some none := by
  exact ⟨rfl, rfl⟩

/-- C5: `push_event` returns the improper-nesting error exactly when the
event is an element-end arriving with an empty open-node stack or whose name
or namespace differs from the innermost open element's; in particular
`[end a]` on a fresh builder and `[start a, end b]` each yield improper
nesting. -/
theorem c5_improper_nesting_iff :
    (∀ (b : ElementBuilder) (e : Except ParserError Event),
      (push_event b e).1 = .error .ImproperNesting ↔
        ∃ tag : EndTag, e = .ok (.ElementEnd tag) ∧
          (b.stack = [] ∨ ∃ top rest, b.stack = top :: rest ∧
            (top.name ≠ tag.name ∨ top.ns ≠ tag.ns))) ∧
    (push_event ElementBuilder.new (.ok (.ElementEnd ⟨"a", none, none⟩))).1 =
      .error .ImproperNesting ∧
    (push_event (push_event ElementBuilder.new
        (.ok (.ElementStart ⟨"a", none, none, []⟩))).2
      (.ok (.ElementEnd ⟨"b", none, none⟩))).1 = .error .ImproperNesting := by
  refine ⟨fun b e => ?_, by rfl, by rfl⟩
  obtain ⟨stack, dns, pm⟩ := b
  match e with
  | .error err => simp [push_event]
  | .ok (.PI s) => cases stack <;> simp [push_event]
  | .ok (.Characters s) => cases stack <;> simp [push_event]
  | .ok (.CDATA s) => cases stack <;> simp [push_event]
  | .ok (.Comment s) => cases stack <;> simp [push_event]
  | .ok (.ElementStart ⟨n, ns, px, attrs⟩) => simp [push_event]
  | .ok (.ElementEnd ⟨n, ns, px⟩) =>
      cases stack with
      | nil => simp [push_event]
      | cons top rest =>
          simp only [push_event]
          by_cases hc : top.name ≠ n ∨ top.ns ≠ ns
          · rw [if_pos hc]
            simp only [true_iff]
            exact ⟨⟨n, ns, px⟩, rfl, .inr ⟨top, rest, rfl, hc⟩⟩
          · rw [if_neg hc]
            push_neg at hc
            cases rest <;> simp [hc.1, hc.2]

/-- C2 witness: the depth invariant applied on a fresh builder (both stacks
empty) to an attribute-free element-start event. -/
theorem c2_depth_invariant_witness :
    ElementBuilder.new.default_ns.length ≤ ElementBuilder.new.stack.length ∧
    (push_event ElementBuilder.new
        (.ok (.ElementStart ⟨"a", none, none, []⟩))).2.default_ns.length ≤
      (push_event ElementBuilder.new
        (.ok (.ElementStart ⟨"a", none, none, []⟩))).2.stack.length :=
  ⟨by decide,
   c2_depth_invariant ElementBuilder.new
     (.ok (.ElementStart ⟨"a", none, none, []⟩)) (by decide)⟩

/-- C7: `define_prefix` inserts or overwrites the mapping
namespaceURI → prefix in the builder's persistent table, leaving the
open-node stack (hence every element created before the call, and its
snapshot) and the default-namespace stack unchanged; the new binding is
visible in the prefix snapshot of every element created afterward whose
start tag does not itself redeclare that namespace. -/
theorem c7_define_prefix_scope (b : ElementBuilder) (p ns : String) :
    (b.define_prefix p ns).prefixes = pmInsert b.prefixes ns p ∧
    pmFind (b.define_prefix p ns).prefixes ns = some p ∧
    (b.define_prefix p ns).stack = b.stack ∧
    (b.define_prefix p ns).default_ns = b.default_ns ∧
    ∀ tag : StartTag,
      (∀ a ∈ tag.attributes,
        ¬(a.1.2 = some "http://www.w3.org/2000/xmlns/" ∧ a.2 = ns)) →
      ((push_event (b.define_prefix p ns)
          (.ok (.ElementStart tag))).2.stack.head?.map
          (fun el => pmFind el.prefixes ns)) = some (some p) := by
  refine ⟨rfl, pmFind_pmInsert_self _ _ _, rfl, rfl, fun tag h => ?_⟩
  obtain ⟨n2, ns2, px2, attrs⟩ := tag
  simp only [push_event, List.head?_cons, Option.map_some', Element.prefixes]
  rw [scanAttrs_pm_find _ _ _ _ h]
  simp [ElementBuilder.define_prefix, pmFind_pmInsert_self]

/-- C7 witness: binding `urn:y → p` on a fresh builder and then starting an
attribute-free element `e` yields an element whose snapshot maps `urn:y`
to `p`. -/
theorem c7_define_prefix_scope_witness :
    ((push_event (ElementBuilder.new.define_prefix "p" "urn:y")
        (.ok (.ElementStart ⟨"e", none, none, []⟩))).2.stack.head?.map
        (fun el => pmFind el.prefixes "urn:y")) = some (some "p") :=
  (c7_define_prefix_scope ElementBuilder.new "p" "urn:y").2.2.2.2
    ⟨"e", none, none, []⟩ (by simp)

/-- C6: for every builder state, when `push_event` is given an upstream
tokenizer failure instead of a decoded event, it returns an error wrapping
that failure and leaves the whole builder state (open-node stack,
default-namespace stack and persistent prefix table) exactly as it was. -/
theorem c6_parser_error_passthrough (b : ElementBuilder) (err : ParserError) :
    push_event b (.error err) = (.error (.Parser err), b) := rfl

/-- C8: a characters, CDATA or comment event processed while the open-node
stack is non-empty appends the corresponding node to the children of the
innermost open element (all other state unchanged); with an empty stack the
event returns pending and leaves the builder state exactly as it was, so it
contributes no node to any tree. -/
theorem c8_content_nodes (s : String) (top : Element) (rest : List Element)
    (dns : List (Option String)) (pm : PrefixMap) :
    push_event ⟨[], dns, pm⟩ (.ok (.Characters s)) = (.ok none, ⟨[], dns, pm⟩) ∧
    push_event ⟨[], dns, pm⟩ (.ok (.CDATA s)) = (.ok none, ⟨[], dns, pm⟩) ∧
    push_event ⟨[], dns, pm⟩ (.ok (.Comment s)) = (.ok none, ⟨[], dns, pm⟩) ∧
    push_event ⟨top :: rest, dns, pm⟩ (.ok (.Characters s)) =
      (.ok none, ⟨top.withChild (.CharacterNode s) :: rest, dns, pm⟩) ∧
    push_event ⟨top :: rest, dns, pm⟩ (.ok (.CDATA s)) =
      (.ok none, ⟨top.withChild (.CDATANode s) :: rest, dns, pm⟩) ∧
    push_event ⟨top :: rest, dns, pm⟩ (.ok (.Comment s)) =
      (.ok none, ⟨top.withChild (.CommentNode s) :: rest, dns, pm⟩) := by
  refine ⟨?_, ?_, ?_, ?_, ?_, ?_⟩ <;> rfl

/-- C9: the attribute mapping stored in the element built by an element-start
event equals the attribute mapping carried by the event; namespace
declarations are interpreted during the scan but not removed from it. -/
theorem c9_attributes_preserved (b : ElementBuilder) (tag : StartTag) :
    ((push_event b (.ok (.ElementStart tag))).2.stack.head?.map
        Element.attributes) = some tag.attributes := by
  obtain ⟨n, ns, px, attrs⟩ := tag
  simp [push_event, Element.attributes]

/-- C10: every successfully decoded event that is not an element-end —
processing instruction, element-start, characters, CDATA or comment — makes
`push_event` return the pending outcome `Ok(None)`: such an event can never
return an error and can never complete a document root. -/
theorem c10_non_end_pending (b : ElementBuilder) :
    (∀ s, (push_event b (.ok (.PI s))).1 = .ok none) ∧
    (∀ tag, (push_event b (.ok (.ElementStart tag))).1 = .ok none) ∧
    (∀ s, (push_event b (.ok (.Characters s))).1 = .ok none) ∧
    (∀ s, (push_event b (.ok (.CDATA s))).1 = .ok none) ∧
    (∀ s, (push_event b (.ok (.Comment s))).1 = .ok none) := by
  refine ⟨fun s => ?_, fun tag => ?_, fun s => ?_, fun s => ?_, fun s => ?_⟩
  · cases h : b.stack <;> simp [push_event, h]
  · obtain ⟨n, ns, px, attrs⟩ := tag
    simp [push_event]
  · cases h : b.stack <;> simp [push_event, h]
  · cases h : b.stack <;> simp [push_event, h]
  · cases h : b.stack <;> simp [push_event, h]

end RustyXML
